import Mathlib

/-!
Shallow embedding of the `pubmed_scraping` package (modules `query.py`,
`pipeline.py`, `soups.py`) and proofs about its query construction,
pagination, rate limiting, extraction filtering and persistence round trip.

Modelling conventions:
* Python module constants become Lean constants with the same names.
* Python `dict` fields whose keys are fixed in the source become Lean
  structures; numeric values that the source stores as decimal strings
  (`str(v)`) and reads back with `int(...)` are modelled as `Int`, since
  that string round trip is exact.
* Python dynamic values that may be either `bytes` or a `list` (as produced
  by `Query.load`'s line parsing) are modelled by the inductive `BVal`;
  operations that would raise (`AttributeError`, `NameError`, ...) return
  `Except PyErr`.
* The class-level attribute `fields` (a single mutable dict shared by all
  instances of a `Query` subclass) is modelled as an explicit heap value
  threaded through the instance operations.
-/

/-- `query.SUMMARY_RETMAX = 500`. -/
def SUMMARY_RETMAX : Int := 500

/-- `query.UID_RETMAX = int(1e5)`. -/
def UID_RETMAX : Int := 100000

/-- The two request functions `requests.get` / `requests.post` that
`req_function` can select. -/
inductive HTTPMethod where
  | get
  | post
deriving DecidableEq, Repr

/-- Python errors that the modelled code can raise. -/
inductive PyErr where
  | attributeError
  | nameError
  | validationError
  | ioError
deriving DecidableEq, Repr

/-- The class-level dict `UIDQuery.fields` (keys fixed in the source:
db, rettype, retmode, version, retmax, retstart). -/
structure UIDFields where
  db : String
  rettype : String
  retmode : String
  version : String
  retmax : Int
  retstart : Int
deriving DecidableEq, Repr

/-- `UIDQuery.fields` initial value:
`OrderedDict([('db','pubmed'), ('rettype','abstract'), ('retmode','xml'),
('version','2.0'), ('retmax', str(SUMMARY_RETMAX)), ('retstart','0')])`. -/
def uidDefaultFields : UIDFields :=
  { db := "pubmed", rettype := "abstract", retmode := "xml", version := "2.0",
    retmax := SUMMARY_RETMAX, retstart := 0 }

/-- `UIDQuery.ret_max` setter: `val = int(val); if val >= int(SUMMARY_RETMAX):
val = int(SUMMARY_RETMAX); self.fields['retmax'] = str(val)`. -/
def uidSetRetMax (f : UIDFields) (v : Int) : UIDFields :=
  { f with retmax := if v ≥ SUMMARY_RETMAX then SUMMARY_RETMAX else v }

/-- `UIDQuery.req_function`: `if self.ret_max >= 200: return requests.post
else: return requests.get`; `ret_max` reads `int(self.fields['retmax'])`. -/
def uidReqFunction (f : UIDFields) : HTTPMethod :=
  if f.retmax ≥ 200 then .post else .get

/-- The class-level dict `KeyWordQuery.fields` (keys db, retmax; the key
retstart is absent until `Query.__init__` first writes it). -/
structure KWFields where
  db : String
  retmax : Int
  retstart : Option Int
deriving DecidableEq, Repr

/-- `KeyWordQuery.fields` initial value:
`OrderedDict([('db','pubmed'), ('retmax', str(UID_RETMAX))])`. -/
def kwDefaultFields : KWFields :=
  { db := "pubmed", retmax := UID_RETMAX, retstart := none }

/-- `KeyWordQuery.ret_max` setter: `val = int(val); if val >= int(UID_RETMAX):
val = int(UID_RETMAX); self.fields['retmax'] = str(val)`. -/
def kwSetRetMax (f : KWFields) (v : Int) : KWFields :=
  { f with retmax := if v ≥ UID_RETMAX then UID_RETMAX else v }

/-- `Query.__init__`: `self.fields['retstart'] = retstart` — a write into the
class-level dict. -/
def kwInitFields (f : KWFields) (retstart : Int) : KWFields :=
  { f with retstart := some retstart }

/-- The class object of `KeyWordQuery`: one shared `fields` dict for all
instances (in the source `fields` is a class attribute mutated in place). -/
structure KWClassHeap where
  fields : KWFields
deriving DecidableEq, Repr

/-- Per-instance attributes created by `Query.__init__`: only `api_key`
(and later `search_terms`); `fields` is not among them. -/
structure KWInstance where
  apiKey : Option String
deriving DecidableEq, Repr

/-- The attribute read `self.fields` on a `KeyWordQuery` instance resolves to
the class attribute, because no instance attribute shadows it. -/
def kwInstFields (h : KWClassHeap) (_inst : KWInstance) : KWFields :=
  h.fields

/-- `KeyWordQuery(retstart, api_key)`: runs `Query.__init__`, which writes
`retstart` into the shared class dict and stores `api_key` on the instance. -/
def kwNew (h : KWClassHeap) (retstart : Int) (apiKey : Option String) :
    KWClassHeap × KWInstance :=
  ({ fields := kwInitFields h.fields retstart }, { apiKey := apiKey })

/-- `inst.ret_max = v` on a `KeyWordQuery` instance: the setter writes into
`self.fields`, i.e. into the shared class dict. -/
def kwInstSetRetMax (h : KWClassHeap) (_inst : KWInstance) (v : Int) :
    KWClassHeap :=
  { fields := kwSetRetMax h.fields v }

/-- `inst.ret_max` read on a `KeyWordQuery` instance:
`int(self.fields['retmax'])` through the shared class dict. -/
def kwInstRetMax (h : KWClassHeap) (inst : KWInstance) : Int :=
  (kwInstFields h inst).retmax

/-- Kernel-reducible model of Python `bytes.split(sep)` for a one-character
separator (accumulator-based; `split` never returns an empty list). -/
def splitCharAux (delim : Char) : List Char → List Char → List (List Char)
  | [], acc => [acc.reverse]
  | c :: rest, acc =>
    if c = delim then acc.reverse :: splitCharAux delim rest []
    else splitCharAux delim rest (c :: acc)

/-- `s.split(delim)` for a single-character delimiter. -/
def splitOnChar (delim : Char) (s : String) : List String :=
  (splitCharAux delim s.data []).map (fun cs => String.mk cs)

/-- `','.join(xs)`. -/
def joinComma : List String → String
  | [] => ""
  | [s] => s
  | s :: rest => s ++ "," ++ joinComma rest

/-- Python `str.isdigit()`: true on nonempty all-digit strings (restricted to
ASCII digits, the only ones the data contains). -/
def pyIsDigit (s : String) : Bool := !s.isEmpty && s.data.all Char.isDigit

/-- Python `x.replace(' ', '')`: remove every space. -/
def pyStripSpaces (s : String) : String :=
  String.mk (s.data.filter (fun c => c ≠ ' '))

/-- A Python value flowing into `UIDQuery._SearchTerms.__init__`: either a
`bytes` object (its UTF-8 decoding modelled as the `String` payload) or a
`list` of such values, as produced by `Query.load`'s per-line split. -/
inductive BVal where
  | bytes (s : String)
  | list (xs : List BVal)

/-- One step of `map(lambda x: x.decode('utf-8').replace(' ', ''), terms)`:
`bytes` decode to their string; a `list` has no `decode` attribute, so the
interpreter raises `AttributeError`. -/
def uidDecodeStrip : BVal → Except PyErr String
  | .bytes s => .ok (pyStripSpaces s)
  | .list _ => .error .attributeError

/-- `UIDQuery._SearchTerms.__init__` on an iterable without a `uid`
attribute: `list(filter(lambda x: x.isdigit(), map(lambda x:
x.decode('utf-8').replace(' ', ''), terms)))`; the first non-`bytes`
element aborts the iteration with `AttributeError`. -/
def uidTermsOfBVals (terms : List BVal) : Except PyErr (List String) :=
  (terms.mapM uidDecodeStrip).map (List.filter pyIsDigit)

/-- `UIDQuery._SearchTerms.__init__` on an object with a `uid` attribute
(`UIDSoup`, `SimpleUIDList`): the uids are decoded bytes, so only the
space-strip and digit filter apply. -/
def uidTermsOfUids (uids : List String) : List String :=
  (uids.map pyStripSpaces).filter pyIsDigit

/-- `UIDQuery._SearchTerms.saveable_format`: `','.join(self).encode('utf-8')`;
this is also the byte content `Query.save` writes for a `.txt` destination. -/
def uidSaveTxt (ids : List String) : String := joinComma ids

/-- `path.split('.')[-1]` — the extension used by `Query.load`/`Query.save`
to dispatch on file type. -/
def pathExtension (path : String) : String :=
  (splitOnChar '.' path).reverse.headD path

/-- Extensions dispatched to `_load_h5` by `Query.load`. -/
def h5Extensions : List String := ["h5", "hd5", "hf5"]

/-- Extensions dispatched to the flat-file reader by `Query.load`. -/
def flatExtensions : List String := ["txt", "pickle", "pkl"]

/-- `[line.split(b',') for line in read.split(b'\n')]` — the nested list
`Query.load` builds from the raw file content (for `.pickle`/`.pkl` the
unpickled object is the same saved byte string, so the parse coincides). -/
def parseDelimited (read : String) : List BVal :=
  (splitOnChar '\n' read).map
    (fun line => BVal.list ((splitOnChar ',' line).map BVal.bytes))

/-- The dispatch of `Query.load(path=...)`: `h5`-family extensions go to
`_load_h5`, flat-file extensions to the delimited parse, and any other
extension leaves the local variable `result` unassigned, so the following
`self._SearchTerms(result)` raises `UnboundLocalError` (a `NameError`).
`loadH5` and `readFile` model the external file system. -/
def queryLoadFromPath (loadH5 : String → Except PyErr (List BVal))
    (readFile : String → String) (path : String) : Except PyErr (List BVal) :=
  let ext := pathExtension path
  if ext ∈ h5Extensions then loadH5 path
  else if ext ∈ flatExtensions then .ok (parseDelimited (readFile path))
  else .error PyErr.nameError

/-- Per-instance attributes of a `UIDQuery`: `api_key` from `__init__` and
`search_terms` once `load` has succeeded (`none` = attribute never set). -/
structure UIDInstance where
  apiKey : Option String
  searchTerms : Option (List String)
deriving DecidableEq, Repr

/-- `UIDQuery.load(path=...)`: dispatch on the extension, then
`self.search_terms = self._SearchTerms(result)`; on any raised error the
assignment does not happen and `search_terms` stays as it was. -/
def uidLoadViaPath (loadH5 : String → Except PyErr (List BVal))
    (readFile : String → String) (inst : UIDInstance) (path : String) :
    Except PyErr UIDInstance :=
  (queryLoadFromPath loadH5 readFile path).bind
    (fun r => (uidTermsOfBVals r).map
      (fun ts => { inst with searchTerms := some ts }))

/-- `UIDQuery.req_function` reads only `self.ret_max` (the `retmax` field of
the shared class dict); the loaded identifier set plays no part. -/
def uidInstReqFunction (f : UIDFields) (_inst : UIDInstance) : HTTPMethod :=
  uidReqFunction f

/-- The keys of `KeyWordQuery._SearchTerms.kw_conversion` (the `None` key is
omitted: a decoded byte string can never equal `None`). -/
def kwConversionKeys : List String :=
  ["", " ", "title", "author", "journal", "affiliation", "language"]

/-- The membership test of the dict comprehension in
`KeyWordQuery._SearchTerms.__init__`:
`li[0].decode('utf-8') in ('mindate', 'maxdate', *self.kw_conversion.keys())`. -/
def kwAcceptedKey (k : String) : Bool :=
  (["mindate", "maxdate"] ++ kwConversionKeys).contains k

/-- Python dict insertion (insertion order kept; re-inserting an existing key
updates it in place). -/
def dictUpsert (d : List (String × List String)) (k : String)
    (v : List String) : List (String × List String) :=
  if d.any (fun p => p.1 == k) then
    d.map (fun p => if p.1 == k then (k, v) else p)
  else d ++ [(k, v)]

/-- Python dict lookup. -/
def dictLookup (d : List (String × List String)) (k : String) :
    Option (List String) :=
  (d.find? (fun p => p.1 == k)).map Prod.snd

/-- Python `del d[k]`. -/
def dictErase (d : List (String × List String)) (k : String) :
    List (String × List String) :=
  d.filter (fun p => p.1 != k)

/-- The dict comprehension
`{li[0].decode('utf-8'): [i.decode('utf-8') for i in li[1:]] for li in arg
if li[0].decode('utf-8') in (...)}`: terms whose field name is not accepted
are dropped by the `if` clause, with no error raised. (Inputs are modelled
after byte decoding; an empty `li` would raise `IndexError` in the source, a
case no claim exercises.) -/
def kwFilterDict (arg : List (List String)) : List (String × List String) :=
  arg.foldl
    (fun d li =>
      let k := li.headD ""
      if kwAcceptedKey k then dictUpsert d k li.tail else d)
    []

/-- A constructed `KeyWordQuery._SearchTerms`: the remaining keyword dict plus
the extracted `mindate`/`maxdate` attributes. -/
structure KWTerms where
  entries : List (String × List String)
  mindate : String
  maxdate : String
deriving DecidableEq, Repr

/-- `KeyWordQuery._SearchTerms.__init__`: filter the argument through the
accepted-key comprehension, then pop `mindate`/`maxdate` (defaults
`'1800'`/`'2100'`). -/
def kwTermsOfArg (arg : List (List String)) : KWTerms :=
  let d0 := kwFilterDict arg
  let p1 : String × List (String × List String) :=
    match dictLookup d0 "mindate" with
    | some v => (v.headD "", dictErase d0 "mindate")
    | none => ("1800", d0)
  let p2 : String × List (String × List String) :=
    match dictLookup p1.2 "maxdate" with
    | some v => (v.headD "", dictErase p1.2 "maxdate")
    | none => ("2100", p1.2)
  { entries := p2.2, mindate := p1.1, maxdate := p2.1 }

/-- A top-level child of the parsed summary document (`self.children`):
either a `Tag` (one `pubmedarticle` element, carrying the attribute value
`medlinecitation.attrs['status']`) or a `NavigableString`. -/
inductive SoupNode where
  | tag (status : String)
  | navString (text : String)
deriving DecidableEq, Repr

/-- `SummarySoup.__iter__`: `for summary in self.children: if
isinstance(summary, Tag) and summary.medlinecitation.attrs['status'] ==
'MEDLINE': yield summary`. -/
def summaryIter : List SoupNode → List SoupNode
  | [] => []
  | .tag st :: rest =>
    if st == "MEDLINE" then .tag st :: summaryIter rest else summaryIter rest
  | .navString _ :: rest => summaryIter rest

/-- The article elements the spec declares valid: top-level `Tag`s whose
citation status equals the accepted value `"MEDLINE"`. -/
def isAcceptedArticle : SoupNode → Bool
  | .tag st => st == "MEDLINE"
  | .navString _ => false

/-- `Pipeline._n_or_max`: `if n >= max_: return max_ else: return n`. -/
def n_or_max (n mx : Nat) : Nat := if n ≥ mx then mx else n

/-- One outbound request recorded by the pipeline: the outer (identifier
search) request, or an inner (record retrieval) request carrying the
identifier batch currently loaded into `uid_query`. -/
inductive Req where
  | outer (retstart : Nat)
  | inner (ids : List String) (retstart : Nat)
deriving DecidableEq, Repr

/-- Whether a request belongs to the outer stage. -/
def Req.isOuter : Req → Bool
  | .outer _ => true
  | .inner _ _ => false

/-- Whether a request belongs to the inner stage. -/
def Req.isInner : Req → Bool
  | .outer _ => false
  | .inner _ _ => true

/-- The requests of one outer-stage iteration `i` of `Pipeline.request`
(caps generalized from the module constants `UID_RETMAX`/`SUMMARY_RETMAX`):
the identifier-search request at cursor `i * kw_query.ret_max`, then one
record-retrieval request for each
`j in range((self.kw_query.ret_max-1)//SUMMARY_RETMAX + 1)` at cursor
`j * uid_query.ret_max`, where `kw_query.ret_max = _n_or_max(n, UID_RETMAX)`
and `uid_query.ret_max = _n_or_max(n, SUMMARY_RETMAX)`. `batch` is the
identifier set loaded from the just-parsed `UIDSoup`; the inner page count
does not consult it. -/
def outerBlock (idCap sumCap n : Nat) (batch : List String) (i : Nat) :
    List Req :=
  let kwRM := n_or_max n idCap
  let uidRM := n_or_max n sumCap
  Req.outer (i * kwRM) ::
    (List.range ((kwRM - 1) / sumCap + 1)).map
      (fun j => Req.inner batch (j * uidRM))

/-- The full request trace of `Pipeline.request(n)`: outer iterations
`i in range((n-1)//UID_RETMAX + 1)`, each contributing `outerBlock` with the
batch obtained by loading `oracle i` (the uid list parsed from the response)
into `uid_query`. (`Nat` subtraction coincides with Python here for the
claimed range `n ≥ 1`.) -/
def pipelineTrace (idCap sumCap n : Nat) (oracle : Nat → List String) :
    List Req :=
  (List.range ((n - 1) / idCap + 1)).flatMap
    (fun i => outerBlock idCap sumCap n (uidTermsOfUids (oracle i)) i)

/-- Number of outer-stage requests in a trace. -/
def countOuter (t : List Req) : Nat := (t.filter Req.isOuter).length

/-- Number of inner-stage requests in a trace. -/
def countInner (t : List Req) : Nat := (t.filter Req.isInner).length

/-- Ceiling division on naturals, the `ceil(a / b)` of the spec. -/
def natCeilDiv (a b : Nat) : Nat := (a + b - 1) / b

/-- The pacing interval: `0.334` seconds (`NCBI cannot accept more than three
requests per second`). -/
def minInterval : ℚ := 334 / 1000

/-- The monotonic-clock state the pipeline threads through both loops:
`time` is the current value of `time.monotonic()`, `prev` the stored
`prev_time`. -/
structure Clock where
  time : ℚ
  prev : ℚ
deriving DecidableEq, Repr

/-- The pacing block run before every request, under the idealization that
everything but `time.sleep` and the network call itself is instantaneous:
`if not time.monotonic() - prev_time > 0.334:
time.sleep(0.334 - time.monotonic() + prev_time); prev_time =
time.monotonic()`. Returns the clock at the request start (with `prev`
updated to it) and the slept duration. -/
def waitSlot (c : Clock) : Clock × ℚ :=
  let elapsed := c.time - c.prev
  let pause := if elapsed > minInterval then 0 else minInterval - elapsed
  ({ time := c.time + pause, prev := c.time + pause }, pause)

/-- The sequence of request start times for requests whose durations (network
time plus intervening processing) are `ds`: each request runs the pacing
block, starts, and advances the clock by its duration. -/
def startTimes (c : Clock) : List ℚ → List ℚ
  | [] => []
  | d :: ds =>
    let c1 := (waitSlot c).1
    c1.time :: startTimes { time := c1.time + d, prev := c1.prev } ds

/-- The upper-saturation pattern of both `ret_max` setters equals an integer
minimum. -/
theorem satur_eq_min (v c : Int) : (if v ≥ c then c else v) = min v c := by
  rw [min_def]
  split <;> split <;> omega

/-- C1 counterexample: a `UIDQuery` holding 199 loaded identifiers but the
default page-size field (500) selects POST, where the claim requires GET for
199 identifiers. -/
theorem uidquery_method_cex :
    uidInstReqFunction uidDefaultFields
        { apiKey := none, searchTerms := some (List.replicate 199 "1") }
      = HTTPMethod.post
    ∧ (List.replicate 199 "1").length = 199
    ∧ HTTPMethod.post ≠ HTTPMethod.get := by
  refine ⟨rfl, List.length_replicate 199 "1", by decide⟩

/-- C1 amended: the HTTP method selected by `UIDQuery.req_function` is POST
exactly when the page-size field `ret_max` is at least 200 and GET otherwise,
irrespective of the loaded identifier set; with the default page size 500
the selection is always POST. -/
theorem uidquery_method_retmax (f : UIDFields) (inst inst' : UIDInstance) :
    uidInstReqFunction f inst = uidInstReqFunction f inst'
    ∧ (uidInstReqFunction f inst = HTTPMethod.post ↔ 200 ≤ f.retmax)
    ∧ uidInstReqFunction uidDefaultFields inst = HTTPMethod.post := by
  refine ⟨rfl, ?_, rfl⟩
  unfold uidInstReqFunction uidReqFunction
  split
  · simp_all [ge_iff_le]
  · simp_all [ge_iff_le]

/-- C6 counterexample: assigning page size `-1` stores `-1` for both query
classes, where the claim requires clamping up to `0`. -/
theorem ret_max_negative_cex :
    (kwSetRetMax kwDefaultFields (-1)).retmax = -1
    ∧ (uidSetRetMax uidDefaultFields (-1)).retmax = -1
    ∧ ((-1 : Int)) ≠ 0 := by
  refine ⟨rfl, rfl, by decide⟩

/-- C6 amended: the `ret_max` setters saturate only at the ceiling
(`min v cap`, cap 100000 for `KeyWordQuery`, 500 for `UIDQuery`); values
below the ceiling, negative ones included, are stored unchanged. -/
theorem ret_max_saturates (fk : KWFields) (fu : UIDFields) (v : Int) :
    (kwSetRetMax fk v).retmax = min v UID_RETMAX
    ∧ (uidSetRetMax fu v).retmax = min v SUMMARY_RETMAX :=
  ⟨satur_eq_min v UID_RETMAX, satur_eq_min v SUMMARY_RETMAX⟩

/-- Two concrete `KeyWordQuery` constructions against the shared class dict
(default state, then instance A, then instance B). -/
def kwDemoA : KWClassHeap × KWInstance :=
  kwNew { fields := kwDefaultFields } 0 none

/-- Second constructed instance, sharing the same class dict. -/
def kwDemoB : KWClassHeap × KWInstance :=
  kwNew kwDemoA.1 0 (some "key")

/-- C9 counterexample: after `B.ret_max = 7`, instance A observes page size 7
instead of the 100000 it last saw — the class-level `fields` dict is shared,
so mutation through one instance is visible through the other. -/
theorem fields_shared_cex :
    kwInstRetMax kwDemoB.1 kwDemoA.2 = 100000
    ∧ kwInstRetMax (kwInstSetRetMax kwDemoB.1 kwDemoB.2 7) kwDemoA.2 = 7
    ∧ kwDemoA.2 ≠ kwDemoB.2
    ∧ (7 : Int) ≠ 100000 := by
  refine ⟨rfl, rfl, by decide, by decide⟩

/-- C9 amended: the parameter dict is a class attribute shared by all
instances: a `ret_max` assignment through any instance `b` is observed
through every instance `a` (as the saturated value), and constructing a new
instance overwrites the shared `retstart` entry seen by every instance. -/
theorem fields_shared (h : KWClassHeap) (a b : KWInstance) (v rs : Int)
    (key : Option String) :
    kwInstRetMax (kwInstSetRetMax h b v) a = min v UID_RETMAX
    ∧ (kwInstFields (kwNew h rs key).1 a).retstart = some rs :=
  ⟨satur_eq_min v UID_RETMAX, rfl⟩

/-- C8: iterating a `SummarySoup` yields exactly the top-level `Tag` children
whose `medlinecitation` status attribute equals `"MEDLINE"`, in document
order; every other child is skipped silently. -/
theorem summary_iter_filters (children : List SoupNode) :
    summaryIter children = children.filter isAcceptedArticle := by
  induction children with
  | nil => rfl
  | cons n rest ih =>
    cases n with
    | tag st =>
      by_cases h : st == "MEDLINE" <;>
        simp [summaryIter, List.filter, isAcceptedArticle, h, ih]
    | navString t => simp [summaryIter, List.filter, isAcceptedArticle, ih]

/-- C10: `Query.load` with no `terms` and a path whose extension is outside
the supported set leaves `result` unassigned, so the call fails with the
name-resolution error (`UnboundLocalError`), not a `ValidationError` or a
persistence error, and no `search_terms` value is produced. -/
theorem load_unknown_extension (loadH5 : String → Except PyErr (List BVal))
    (readFile : String → String) (inst : UIDInstance) (path : String)
    (h1 : pathExtension path ∉ h5Extensions)
    (h2 : pathExtension path ∉ flatExtensions) :
    uidLoadViaPath loadH5 readFile inst path = Except.error PyErr.nameError
    ∧ PyErr.nameError ≠ PyErr.validationError
    ∧ PyErr.nameError ≠ PyErr.ioError := by
  refine ⟨?_, by decide, by decide⟩
  simp [uidLoadViaPath, queryLoadFromPath, h1, h2, Except.bind]

/-- C10 witness: a `.csv` path concretely triggers the name-resolution
error. -/
theorem load_unknown_extension_witness :
    pathExtension "data.csv" ∉ h5Extensions
    ∧ pathExtension "data.csv" ∉ flatExtensions
    ∧ uidLoadViaPath (fun _ => Except.ok []) (fun _ => "")
        { apiKey := none, searchTerms := none } "data.csv"
      = Except.error PyErr.nameError
    ∧ PyErr.nameError ≠ PyErr.validationError
    ∧ PyErr.nameError ≠ PyErr.ioError := by
  have h1 : pathExtension "data.csv" ∉ h5Extensions := by decide
  have h2 : pathExtension "data.csv" ∉ flatExtensions := by decide
  have h3 := load_unknown_extension (fun _ => Except.ok []) (fun _ => "")
    { apiKey := none, searchTerms := none } "data.csv" h1 h2
  exact ⟨h1, h2, h3.1, h3.2.1, h3.2.2⟩

/-- C4, evaluated at the failing input: saving the identifier set
`["28852740","29350911"]` writes `"28852740,29350911"`; loading that text
back parses it into a nested list whose elements are lists, so the
element-wise `decode` of `UIDQuery._SearchTerms.__init__` raises
`AttributeError` instead of reproducing the sequence — while the same
constructor applied to the flat byte list (the documented intent, and what
the legacy copy restored with `np.concatenate`) does reproduce it. -/
theorem uid_txt_roundtrip_fails :
    uidSaveTxt ["28852740", "29350911"] = "28852740,29350911"
    ∧ uidLoadViaPath (fun _ => Except.ok [])
        (fun _ => uidSaveTxt ["28852740", "29350911"])
        { apiKey := none, searchTerms := none } "uids.txt"
      = Except.error PyErr.attributeError
    ∧ uidTermsOfBVals [BVal.bytes "28852740", BVal.bytes "29350911"]
      = Except.ok ["28852740", "29350911"] := by
  refine ⟨rfl, rfl, rfl⟩

/-- `dictUpsert` keeps the all-keys-accepted invariant. -/
theorem dictUpsert_keys (d : List (String × List String)) (k : String)
    (v : List String) (hd : ∀ p ∈ d, kwAcceptedKey p.1 = true)
    (hk : kwAcceptedKey k = true) :
    ∀ p ∈ dictUpsert d k v, kwAcceptedKey p.1 = true := by
  intro p hp
  unfold dictUpsert at hp
  split at hp
  · rcases List.mem_map.mp hp with ⟨q, hq, hqe⟩
    by_cases hq1 : q.1 == k
    · rw [if_pos hq1] at hqe
      rw [← hqe]
      exact hk
    · rw [if_neg hq1] at hqe
      rw [← hqe]
      exact hd q hq
  · rcases List.mem_append.mp hp with hin | hin
    · exact hd p hin
    · have : p = (k, v) := by simpa using hin
      rw [this]
      exact hk
/-- Every key the accepted-key comprehension stores is accepted. -/
theorem kwFilterDict_keys_accepted (arg : List (List String)) :
    ∀ p ∈ kwFilterDict arg, kwAcceptedKey p.1 = true := by
  have aux : ∀ (l : List (List String)) (d : List (String × List String)),
      (∀ p ∈ d, kwAcceptedKey p.1 = true) →
      ∀ p ∈ l.foldl
          (fun d li =>
            let k := li.headD ""
            if kwAcceptedKey k then dictUpsert d k li.tail else d) d,
        kwAcceptedKey p.1 = true := by
    intro l
    induction l with
    | nil =>
      intro d hd
      simpa using hd
    | cons li rest ih =>
      intro d hd
      rw [List.foldl_cons]
      by_cases h : kwAcceptedKey (li.headD "") = true
      · simp only [h, if_true]
        exact ih _ (dictUpsert_keys d _ li.tail hd h)
      · simp only [eq_false_of_ne_true h, if_false]
        exact ih d hd
  exact aux arg [] (by intro p hp; cases hp)

/-- Erasure only removes entries. -/
theorem dictErase_subset (d : List (String × List String)) (k : String) :
    ∀ p ∈ dictErase d k, p ∈ d := by
  intro p hp
  exact (List.mem_filter.mp hp).1

/-- Every entry surviving in a constructed `_SearchTerms` has an accepted
key. -/
theorem kwTerms_entries_keys (arg : List (List String)) :
    ∀ p ∈ (kwTermsOfArg arg).entries, kwAcceptedKey p.1 = true := by
  intro p hp
  apply kwFilterDict_keys_accepted arg
  cases h1 : dictLookup (kwFilterDict arg) "mindate" with
  | none =>
    simp only [kwTermsOfArg, h1] at hp
    cases h2 : dictLookup (kwFilterDict arg) "maxdate" with
    | none =>
      simp only [h2] at hp
      exact hp
    | some v2 =>
      simp only [h2] at hp
      exact dictErase_subset _ _ p hp
  | some v1 =>
    simp only [kwTermsOfArg, h1] at hp
    cases h2 : dictLookup (dictErase (kwFilterDict arg) "mindate")
        "maxdate" with
    | none =>
      simp only [h2] at hp
      exact dictErase_subset _ _ p hp
    | some v2 =>
      simp only [h2] at hp
      exact dictErase_subset _ _ p (dictErase_subset _ _ p hp)

/-- A lookup of an unaccepted key in an all-accepted dict misses. -/
theorem dictLookup_unaccepted (d : List (String × List String)) (k : String)
    (hd : ∀ p ∈ d, kwAcceptedKey p.1 = true)
    (h : kwAcceptedKey k = false) : dictLookup d k = none := by
  unfold dictLookup
  rw [List.find?_eq_none.mpr]
  · rfl
  · intro x hx hbe
    have hxk : x.1 = k := by simpa using hbe
    rw [← hxk] at h
    rw [hd x hx] at h
    cases h

/-- C7 counterexample: constructing keyword search terms from an input whose
field name is unrecognized succeeds (no `ValidationError`): the result is the
empty term set with default date bounds, the bad field silently gone. -/
theorem unknown_field_cex :
    kwTermsOfArg [["badfield", "x"]]
      = { entries := [], mindate := "1800", maxdate := "2100" }
    ∧ kwAcceptedKey "badfield" = false :=
  ⟨rfl, rfl⟩

/-- C7 amended: a search term whose field name is outside the recognized set
is silently dropped by the constructing comprehension — removing it does not
change the constructed value, no error is raised, and no unrecognized key
ever appears among the constructed entries. -/
theorem unknown_field_dropped (arg1 arg2 : List (List String))
    (li : List String) (h : kwAcceptedKey (li.headD "") = false) :
    kwTermsOfArg (arg1 ++ li :: arg2) = kwTermsOfArg (arg1 ++ arg2)
    ∧ ∀ k, kwAcceptedKey k = false →
        dictLookup (kwTermsOfArg (arg1 ++ li :: arg2)).entries k = none := by
  constructor
  · have hstep : kwFilterDict (arg1 ++ li :: arg2)
        = kwFilterDict (arg1 ++ arg2) := by
      unfold kwFilterDict
      rw [List.foldl_append, List.foldl_append, List.foldl_cons]
      simp only [h, Bool.false_eq_true, if_false]
    unfold kwTermsOfArg
    rw [hstep]
  · intro k hk
    exact dictLookup_unaccepted _ k (kwTerms_entries_keys _) hk

/-- C7 witness: the single unrecognized term `badfield` is concretely
dropped. -/
theorem unknown_field_dropped_witness :
    kwAcceptedKey (["badfield", "x"].headD "") = false
    ∧ kwTermsOfArg ([] ++ ["badfield", "x"] :: []) = kwTermsOfArg ([] ++ [])
    ∧ dictLookup (kwTermsOfArg ([] ++ ["badfield", "x"] :: [])).entries
        "badfield" = none :=
  ⟨rfl, (unknown_field_dropped [] [] ["badfield", "x"] rfl).1,
    (unknown_field_dropped [] [] ["badfield", "x"] rfl).2 "badfield" rfl⟩

/-- `countOuter` distributes over concatenation. -/
theorem countOuter_append (t u : List Req) :
    countOuter (t ++ u) = countOuter t + countOuter u := by
  unfold countOuter
  rw [List.filter_append, List.length_append]

/-- `_n_or_max` is a minimum. -/
theorem n_or_max_eq_min (a b : Nat) : n_or_max a b = min a b := by
  unfold n_or_max
  rw [Nat.min_def]
  split <;> split <;> omega

/-- Each outer-stage block carries exactly one outer request. -/
theorem countOuter_outerBlock (idCap sumCap n : Nat) (batch : List String)
    (i : Nat) : countOuter (outerBlock idCap sumCap n batch i) = 1 := by
  unfold countOuter outerBlock
  rw [List.filter_cons]
  simp only [Req.isOuter, if_true, List.filter_map]
  have : (Req.isOuter ∘ fun j => Req.inner batch (j * n_or_max n sumCap))
      = fun _ => false := rfl
  rw [this, List.filter_false]
  rfl

/-- A trace made of `m` blocks, each with one outer request, has `m` outer
requests. -/
theorem countOuter_flatMap (g : Nat → List Req) (m : Nat)
    (h : ∀ i, countOuter (g i) = 1) :
    countOuter ((List.range m).flatMap g) = m := by
  induction m with
  | zero => rfl
  | succ k ih =>
    rw [List.range_succ, List.flatMap_append, countOuter_append, ih]
    simp [List.flatMap_cons, List.flatMap_nil, h k]

/-- Ceiling division reshaped for comparison with the source's
`(a-1)//b + 1`. -/
theorem ceil_div_eq (a b : Nat) (ha : 1 ≤ a) (hb : 1 ≤ b) :
    natCeilDiv a b = (a - 1) / b + 1 := by
  unfold natCeilDiv
  have h : a + b - 1 = (a - 1) + b := by omega
  rw [h, Nat.add_div_right _ hb]

/-- The spec's `ceil(n / min(n, c))` agrees with the source's
`(n-1)//c + 1`. -/
theorem outer_pages_arith (n c : Nat) (hn : 1 ≤ n) (hc : 1 ≤ c) :
    natCeilDiv n (min n c) = (n - 1) / c + 1 := by
  rcases le_or_lt n c with h | h
  · rw [Nat.min_eq_left h, ceil_div_eq n n hn hn]
    have h1 : (n - 1) / n = 0 := Nat.div_eq_of_lt (by omega)
    have h2 : (n - 1) / c = 0 := Nat.div_eq_of_lt (by omega)
    omega
  · rw [Nat.min_eq_right (Nat.le_of_lt h)]
    exact ceil_div_eq n c hn hc

/-- C2: for `n ≥ 1` and page cap `c ≥ 1`, `Pipeline.request` executes
`ceil(n / min(n, c)) = (n-1)//c + 1` outer-stage iterations; in particular
`n = c` gives exactly one outer page and `n = c + 1` gives two. -/
theorem outer_page_count (idCap sumCap n : Nat) (oracle : Nat → List String)
    (hn : 1 ≤ n) (hc : 1 ≤ idCap) :
    countOuter (pipelineTrace idCap sumCap n oracle)
        = natCeilDiv n (min n idCap)
    ∧ countOuter (pipelineTrace idCap sumCap n oracle) = (n - 1) / idCap + 1
    ∧ (n = idCap → countOuter (pipelineTrace idCap sumCap n oracle) = 1)
    ∧ (n = idCap + 1 →
        countOuter (pipelineTrace idCap sumCap n oracle) = 2) := by
  have hbase : countOuter (pipelineTrace idCap sumCap n oracle)
      = (n - 1) / idCap + 1 :=
    countOuter_flatMap _ _ (fun i => countOuter_outerBlock idCap sumCap n _ i)
  refine ⟨?_, hbase, ?_, ?_⟩
  · rw [hbase, outer_pages_arith n idCap hn hc]
  · intro he
    rw [hbase]
    have : (n - 1) / idCap = 0 := Nat.div_eq_of_lt (by omega)
    omega
  · intro he
    rw [hbase, he]
    have : (idCap + 1 - 1) / idCap = 1 := by
      simp [Nat.div_self (Nat.lt_of_lt_of_le Nat.zero_lt_one hc)]
    omega

/-- C2 witness: `n = 5`, identifier page cap `2`: three outer pages. -/
theorem outer_page_count_witness :
    (1 ≤ 5) ∧ (1 ≤ 2)
    ∧ (countOuter (pipelineTrace 2 500 5 (fun _ => []))
          = natCeilDiv 5 (min 5 2)
        ∧ countOuter (pipelineTrace 2 500 5 (fun _ => [])) = (5 - 1) / 2 + 1
        ∧ (5 = 2 → countOuter (pipelineTrace 2 500 5 (fun _ => [])) = 1)
        ∧ (5 = 2 + 1 →
            countOuter (pipelineTrace 2 500 5 (fun _ => [])) = 2)) :=
  ⟨by decide, by decide,
    outer_page_count 2 500 5 (fun _ => []) (by decide) (by decide)⟩

/-- C3 counterexample: with the real caps (100000/500) and `n = 1000`, the
outer iteration whose batch holds a single identifier still issues 2 inner
requests, not `ceil(1/500) = 1`. -/
theorem inner_count_cex :
    countInner (outerBlock 100000 500 1000 (uidTermsOfUids ["7"]) 0) = 2
    ∧ (uidTermsOfUids ["7"]).length = 1
    ∧ natCeilDiv 1 500 = 1
    ∧ (2 : Nat) ≠ 1 := by
  refine ⟨rfl, rfl, rfl, by decide⟩

/-- Inner requests of one block, counted. -/
theorem countInner_outerBlock (idCap sumCap n : Nat) (batch : List String)
    (i : Nat) :
    countInner (outerBlock idCap sumCap n batch i)
      = (n_or_max n idCap - 1) / sumCap + 1 := by
  unfold countInner outerBlock
  rw [List.filter_cons]
  simp only [Req.isInner, if_false, Bool.false_eq_true, List.filter_map]
  have : (Req.isInner ∘ fun j => Req.inner batch (j * n_or_max n sumCap))
      = fun _ => true := rfl
  rw [this, List.filter_true, List.length_map, List.length_range]

/-- C3 amended: each outer-stage iteration issues
`ceil(kw_query.ret_max / SUMMARY_RETMAX)` inner requests, where
`kw_query.ret_max = min(n, UID_RETMAX)` is the requested outer page size —
independent of how many identifiers the batch actually contains. -/
theorem inner_count_uses_retmax (idCap sumCap n : Nat) (batch : List String)
    (i : Nat) (hn : 1 ≤ n) (hc : 1 ≤ idCap) (hs : 1 ≤ sumCap) :
    countInner (outerBlock idCap sumCap n batch i)
      = natCeilDiv (min n idCap) sumCap := by
  rw [countInner_outerBlock, n_or_max_eq_min,
    ceil_div_eq (min n idCap) sumCap (by omega) hs]

/-- C3 witness: concrete instantiation of the amended inner-page count. -/
theorem inner_count_uses_retmax_witness :
    (1 ≤ 1000) ∧ (1 ≤ 100000) ∧ (1 ≤ 500)
    ∧ countInner (outerBlock 100000 500 1000 ["7"] 0)
        = natCeilDiv (min 1000 100000) 500 :=
  ⟨by decide, by decide, by decide,
    inner_count_uses_retmax 100000 500 1000 ["7"] 0 (by decide) (by decide)
      (by decide)⟩

/-- Gap invariant of the pacing loop: started from a clock whose `prev` is
`p` (the previous request start) and whose `time` is `p + d`, every produced
start time chain respects the minimum interval, and the first produced start
is at least `p + minInterval`. -/
theorem startTimes_chain_aux (ds : List ℚ) (p d : ℚ) :
    List.Chain' (fun a b => a + minInterval ≤ b)
        (startTimes { time := p + d, prev := p } ds)
    ∧ ∀ x ∈ (startTimes { time := p + d, prev := p } ds).head?,
        p + minInterval ≤ x := by
  induction ds generalizing p d with
  | nil => simp [startTimes]
  | cons e ds ih =>
    have hT : ((waitSlot { time := p + d, prev := p }).1).time
        = p + d + (if p + d - p > minInterval then 0
            else minInterval - (p + d - p)) := rfl
    have hT2 : ((waitSlot { time := p + d, prev := p }).1).prev
        = p + d + (if p + d - p > minInterval then 0
            else minInterval - (p + d - p)) := rfl
    set T := p + d + (if p + d - p > minInterval then 0
        else minInterval - (p + d - p)) with hTdef
    have hTlow : p + minInterval ≤ T := by
      rw [hTdef]
      split
    -- pause 0: d already exceeds the interval
      · linarith [show p + d - p = d from by ring]
      · linarith [show p + d - p = d from by ring]
    have hunfold : startTimes { time := p + d, prev := p } (e :: ds)
        = T :: startTimes { time := T + e, prev := T } ds := by
      simp only [startTimes]
      rw [hT, hT2]
    rw [hunfold]
    have hih := ih T e
    constructor
    · rw [List.chain'_cons']
      constructor
      · intro y hy
        have := hih.2 y hy
        linarith
      · exact hih.1
    · intro x hx
      simp only [List.head?_cons, Option.mem_def, Option.some.injEq] at hx
      rw [← hx]
      exact hTlow

/-- C5: every two consecutive request start times produced by the pipeline's
pacing blocks are at least `minInterval = 0.334` seconds apart, and whenever
less than `minInterval` has elapsed since the previous request start, the
pacing block sleeps exactly the remaining time. (Idealized monotonic clock:
only `time.sleep` and the request durations `ds` advance it.) -/
theorem rate_limiter_min_gap (c c' : Clock) (ds : List ℚ)
    (h : c'.time - c'.prev < minInterval) :
    List.Chain' (fun a b => a + minInterval ≤ b) (startTimes c ds)
    ∧ (waitSlot c').2 = minInterval - (c'.time - c'.prev) := by
  constructor
  · have h1 := (startTimes_chain_aux ds c.prev (c.time - c.prev)).1
    have h2 : ({ time := c.prev + (c.time - c.prev), prev := c.prev }
        : Clock) = c := by
      have ht : c.prev + (c.time - c.prev) = c.time := by ring
      cases c
      simp_all
    rwa [h2] at h1
  · show (if c'.time - c'.prev > minInterval then 0
        else minInterval - (c'.time - c'.prev))
      = minInterval - (c'.time - c'.prev)
    rw [if_neg (by linarith)]

/-- C5 witness: a concrete clock and two requests with durations 0 and 2
seconds. -/
theorem rate_limiter_min_gap_witness :
    ((⟨1, 9/10⟩ : Clock).time - (⟨1, 9/10⟩ : Clock).prev < minInterval)
    ∧ (List.Chain' (fun a b => a + minInterval ≤ b)
          (startTimes ⟨0, 0⟩ [0, 2])
        ∧ (waitSlot ⟨1, 9/10⟩).2
            = minInterval - ((⟨1, 9/10⟩ : Clock).time
                - (⟨1, 9/10⟩ : Clock).prev)) := by
  have h : ((⟨1, 9/10⟩ : Clock).time - (⟨1, 9/10⟩ : Clock).prev
      < minInterval) := by
    show (1 : ℚ) - 9/10 < minInterval
    rw [minInterval]
    norm_num
  exact ⟨h, rate_limiter_min_gap ⟨0, 0⟩ ⟨1, 9/10⟩ [0, 2] h⟩
